import Mathlib

/-!
Shallow embedding of the GraphQL schema material of this repository
(schema.js snippets: object types, root query fields, mutation fields and
their resolvers) together with the resolution model the spec documents
(argument validation, field resolution with default resolvers, list
completion, partial-failure error scoping).

The schema declarations and the resolver bodies are translated from the
source snippets; the executor, the argument validator and the downstream
record store are not present under src/ (they are the library and the
json-server collaborator), so they are modelled from the spec, as marked
in the doc comments below.
-/

/-- JSON-like values: the records the resolvers pass around (`ResolvedValue`
in the spec). Objects are ordered key-value lists, as JS objects are. -/
inductive Value where
  | vnull : Value
  | vstr (s : String) : Value
  | vint (n : Int) : Value
  | vobj (fields : List (String × Value)) : Value
  | vlist (elems : List Value) : Value

/-- An object body: an ordered association list of field name to value. -/
abbrev Obj := List (String × Value)

/-- Attribute read off a record-like value, as JS property access:
a missing key or a non-object receiver yields `none` (JS `undefined`). -/
def attr (v : Value) (key : String) : Option Value :=
  match v with
  | Value.vobj fields => fields.lookup key
  | _ => none

/-- JS template-literal stringification of a possibly-absent value, as used
when a resolver splices `args.id` or `parentValue.companyId` into a URL:
`undefined` prints as the string "undefined". -/
def jsToString (v : Option Value) : String :=
  match v with
  | none => "undefined"
  | some Value.vnull => "null"
  | some (Value.vstr s) => s
  | some (Value.vint n) => toString n
  | some (Value.vobj _) => "object"
  | some (Value.vlist _) => "array"

/-- Coalesce an absent value to null, as JSON serialisation treats a
destructured-but-absent JS binding. -/
def orNull (v : Option Value) : Value :=
  match v with
  | some v => v
  | none => Value.vnull

/-- Whether a record's `id` attribute is the string `id`. -/
def hasId (r : Obj) (id : String) : Bool :=
  match r.lookup "id" with
  | some (Value.vstr s) => s == id
  | _ => false

/-- Modelled from the spec: the downstream record store (the json-server
collaborator behind localhost:3000, not under src/), holding the `users`
and `companies` collections as record lists. -/
structure Store where
  users : List Obj
  companies : List Obj

/-- Find a record by its `id` attribute (spec contract: find(id) -> record|absent). -/
def findRec (recs : List Obj) (id : String) : Option Obj :=
  recs.find? (fun r => hasId r id)

/-- Modelled from the spec: id assignment performed by the collaborator's
create operation (the store, not under src/, picks the identifier). -/
def freshId (store : Store) : String :=
  toString (store.users.length + 100)

/-- Merge a partial-update body into an existing record: keys present in
the delta override, keys absent from the delta keep their stored value
(PATCH semantics, as the source notes for PUT vs PATCH). -/
def mergeObj (old delta : Obj) : Obj :=
  old.map (fun kv =>
    match delta.lookup kv.1 with
    | some v => (kv.1, v)
    | none => kv) ++
  delta.filter (fun kv => (old.lookup kv.1).isNone)

/-- Modelled from the spec: GET /users/:id against the collaborator; an
absent identifier is a 404, surfaced to the resolver as a failure. -/
def httpGetUser (store : Store) (id : String) : Except String Value :=
  match findRec store.users id with
  | some r => Except.ok (Value.vobj r)
  | none => Except.error "404 users"

/-- Modelled from the spec: GET /companies/:id against the collaborator. -/
def httpGetCompany (store : Store) (id : String) : Except String Value :=
  match findRec store.companies id with
  | some r => Except.ok (Value.vobj r)
  | none => Except.error "404 companies"

/-- Whether a user record's `companyId` attribute is the string `cid`. -/
def hasCompanyId (cid : String) (r : Obj) : Bool :=
  match r.lookup "companyId" with
  | some (Value.vstr s) => s == cid
  | _ => false

/-- Record list behind the collaborator's nested companies/:id/users route:
in store order, the users whose companyId matches. -/
def companyUsersList (store : Store) (cid : String) : List Value :=
  (store.users.filter (hasCompanyId cid)).map Value.vobj

/-- Modelled from the spec: GET /companies/:id/users — the collaborator's
nested route returning, in store order, the users whose companyId matches. -/
def httpGetCompanyUsers (store : Store) (cid : String) : Except String Value :=
  Except.ok (Value.vlist (companyUsersList store cid))

/-- Modelled from the spec: POST /users — create(record) -> record; the
collaborator assigns the id and returns the created record. -/
def httpPost (store : Store) (body : Obj) : Value × Store :=
  let r := ("id", Value.vstr (freshId store)) :: body
  (Value.vobj r, { store with users := store.users ++ [r] })

/-- Modelled from the spec: PATCH /users/:id — update(id, partial) -> record;
an absent identifier is a 404 failure, otherwise the delta is merged in. -/
def httpPatch (store : Store) (id : String) (body : Obj) : Except String (Value × Store) :=
  match findRec store.users id with
  | none => Except.error "404 users"
  | some r =>
    let r2 := mergeObj r body
    Except.ok (Value.vobj r2,
      { store with users := store.users.map (fun u => if hasId u id then r2 else u) })

/-- Modelled from the spec: DELETE /users/:id — delete(id) -> id; an absent
identifier is a 404 failure, otherwise the record is removed and the deleted
record's identifier is returned (embedded as a record holding only the id,
so the mutation's declared UserType can be resolved from it). -/
def httpDelete (store : Store) (id : String) : Except String (Value × Store) :=
  match findRec store.users id with
  | none => Except.error "404 users"
  | some _ =>
    Except.ok (Value.vobj [("id", Value.vstr id)],
      { store with users := store.users.filter (fun u => !(hasId u id)) })

/-- Scalar types used by the schema: GraphQLString and GraphQLInt. -/
inductive ScalarType where
  | string : ScalarType
  | int : ScalarType
  deriving DecidableEq

/-- Declared output type of a field: scalar, object-type reference by name
(the name indirection embeds the deferred field-map construction that breaks
the User/Company reference cycle), or list of an object type. -/
inductive FieldType where
  | scalar (t : ScalarType) : FieldType
  | object (tyName : String) : FieldType
  | listOf (tyName : String) : FieldType

/-- FieldDefinition of a nested (non-root) field: declared output type and
optional resolver; nested fields of this schema declare no arguments. -/
structure FieldDef where
  name : String
  ty : FieldType
  resolver : Option (Store → Value → Obj → Except String Value)

/-- TypeDefinition: a named object type with its ordered field list. -/
structure TypeDef where
  name : String
  fields : List FieldDef

/-- Resolver of User.company (schema.js): GET companies/{parentValue.companyId}. -/
def userCompanyResolve (store : Store) (parent : Value) (_args : Obj) : Except String Value :=
  httpGetCompany store (jsToString (attr parent "companyId"))

/-- Resolver of Company.users (schema.js): GET companies/{parentValue.id}/users. -/
def companyUsersResolve (store : Store) (parent : Value) (_args : Obj) : Except String Value :=
  httpGetCompanyUsers store (jsToString (attr parent "id"))

/-- UserType (schema.js): id, firstName, age without resolvers, company with
its own resolver returning CompanyType. -/
def UserType : TypeDef :=
  ⟨"User",
   [⟨"id", FieldType.scalar ScalarType.string, none⟩,
    ⟨"firstName", FieldType.scalar ScalarType.string, none⟩,
    ⟨"age", FieldType.scalar ScalarType.int, none⟩,
    ⟨"company", FieldType.object "Company", some userCompanyResolve⟩]⟩

/-- CompanyType (schema.js): id, name, description without resolvers, users
with its own resolver returning a GraphQLList of UserType. -/
def CompanyType : TypeDef :=
  ⟨"Company",
   [⟨"id", FieldType.scalar ScalarType.string, none⟩,
    ⟨"name", FieldType.scalar ScalarType.string, none⟩,
    ⟨"description", FieldType.scalar ScalarType.string, none⟩,
    ⟨"users", FieldType.listOf "User", some companyUsersResolve⟩]⟩

/-- The type registry of the final schema. -/
def registry : List TypeDef := [UserType, CompanyType]

/-- A selected field of a query document: name, supplied arguments, and
sub-selection set. -/
inductive Selection where
  | field (name : String) (args : Obj) (sub : List Selection) : Selection

/-- Error taxonomy entries relevant at execution time (spec section 7). -/
inductive ErrKind where
  | validationError : ErrKind
  | resolutionError : ErrKind
  deriving DecidableEq

/-- An entry of the result's errors sequence: kind, path of the failing
field, message. -/
structure ErrEntry where
  kind : ErrKind
  path : List String
  message : String
  deriving DecidableEq

/-- Result of executing a document: data mapping plus ordered errors. -/
structure GraphQLResult where
  data : Obj
  errors : List ErrEntry

/-- Look up a type by name in the registry. -/
def lookupType (reg : List TypeDef) (n : String) : Option TypeDef :=
  reg.find? (fun t => t.name == n)

/-- Look up a field of a type by name. -/
def findField (td : TypeDef) (n : String) : Option FieldDef :=
  td.fields.find? (fun f => f.name == n)

/-- Default resolver: read the same-named attribute off the parent value
(an absent attribute serialises as null). -/
def defaultResolve (parent : Value) (name : String) : Value :=
  match attr parent name with
  | some v => v
  | none => Value.vnull

/-- Assemble per-field results of a selection set into a data object plus
the concatenated error list. -/
def combine (rs : List ((String × Value) × List ErrEntry)) : Obj × List ErrEntry :=
  (rs.map Prod.fst, (rs.map Prod.snd).flatten)

/-- Modelled from the spec (section 4.4, the library executor, not under
src/): resolve one selected field against a parent value of the named type.
The resolver (or the default attribute read) produces a value; a failure
becomes a resolution error scoped at this field's path and a null value;
an object-typed value recurses into the sub-selection; a list-typed value
recurses into every element independently, indexing the path. The fuel
argument bounds the recursion depth and exceeds any document's depth when
instantiated with the document's size. -/
def execSel (reg : List TypeDef) (store : Store) :
    Nat → String → Value → List String → Selection → (String × Value) × List ErrEntry
  | 0, _, _, _, Selection.field n _ _ => ((n, Value.vnull), [])
  | fuel+1, tyName, parent, path, Selection.field name args sub =>
    match lookupType reg tyName with
    | none => ((name, Value.vnull), [⟨ErrKind.validationError, path ++ [name], "unknown type"⟩])
    | some td =>
      match findField td name with
      | none => ((name, Value.vnull), [⟨ErrKind.validationError, path ++ [name], "unknown field"⟩])
      | some fd =>
        match (match fd.resolver with
               | some res => res store parent args
               | none => Except.ok (defaultResolve parent name)) with
        | Except.error msg => ((name, Value.vnull), [⟨ErrKind.resolutionError, path ++ [name], msg⟩])
        | Except.ok v =>
          match fd.ty with
          | FieldType.scalar _ => ((name, v), [])
          | FieldType.object t =>
            match v with
            | Value.vnull => ((name, Value.vnull), [])
            | _ =>
              let rs := combine (sub.map (fun s => execSel reg store fuel t v (path ++ [name]) s))
              ((name, Value.vobj rs.1), rs.2)
          | FieldType.listOf t =>
            match v with
            | Value.vlist elems =>
              let outs := elems.enum.map (fun p =>
                combine (sub.map (fun s =>
                  execSel reg store fuel t p.2 (path ++ [name, toString p.1]) s)))
              ((name, Value.vlist (outs.map (fun o => Value.vobj o.1))),
               (outs.map Prod.snd).flatten)
            | _ => ((name, Value.vnull),
                    [⟨ErrKind.resolutionError, path ++ [name], "expected a list"⟩])

/-- Declared argument of a root field: name, scalar type, required flag
(GraphQLNonNull in the source). -/
structure ArgDef where
  name : String
  scalar : ScalarType
  required : Bool

/-- Whether a supplied value has the declared scalar type. -/
def scalarMatches (t : ScalarType) : Value → Bool
  | Value.vstr _ => t == ScalarType.string
  | Value.vint _ => t == ScalarType.int
  | _ => false

/-- Modelled from the spec (section 4.3, the library dispatcher, not under
src/): validate supplied arguments against the field's argument schema.
A required-but-missing argument or a wrongly typed supplied argument yields
the ValidationError message; `none` means the arguments are accepted. -/
def validateArgs (defs : List ArgDef) (args : Obj) : Option String :=
  match defs with
  | [] => none
  | d :: rest =>
    match args.lookup d.name with
    | none =>
      if d.required then some ("missing required argument " ++ d.name)
      else validateArgs rest args
    | some v =>
      if scalarMatches d.scalar v then validateArgs rest args
      else some ("wrong type for argument " ++ d.name)

/-- A RootField of the query root: argument schema, declared return type
and the root resolver (read-only against the store). -/
structure RootField where
  name : String
  retTy : String
  argDefs : List ArgDef
  resolve : Store → Obj → Except String Value

/-- Resolver of RootQuery.user (schema.js, axios phase): GET users/{args.id}. -/
def rootUserResolve (store : Store) (args : Obj) : Except String Value :=
  httpGetUser store (jsToString (args.lookup "id"))

/-- Resolver of RootQuery.company (schema.js): GET companies/{args.id}. -/
def rootCompanyResolve (store : Store) (args : Obj) : Except String Value :=
  httpGetCompany store (jsToString (args.lookup "id"))

/-- RootQuery.user (schema.js): optional id argument of type GraphQLString. -/
def userRootField : RootField :=
  ⟨"user", "User", [⟨"id", ScalarType.string, false⟩], rootUserResolve⟩

/-- RootQuery.company (schema.js): optional id argument of type GraphQLString. -/
def companyRootField : RootField :=
  ⟨"company", "Company", [⟨"id", ScalarType.string, false⟩], rootCompanyResolve⟩

/-- The query root's field list (schema.js, final phase). -/
def rootQueryFields : List RootField := [userRootField, companyRootField]

/-- Modelled from the spec (section 4.3): execute one root query field —
validate arguments, invoke the root resolver, then resolve the declared
return type from the yielded value (a null yield serialises as null with
no error entry). The fuel bounds sub-selection depth; every theorem below
quantifies over it or supplies one exceeding its document's depth. -/
def execRootField (reg : List TypeDef) (store : Store) (fuel : Nat) (rf : RootField)
    (args : Obj) (sub : List Selection) : (String × Value) × List ErrEntry :=
  match validateArgs rf.argDefs args with
  | some msg => ((rf.name, Value.vnull), [⟨ErrKind.validationError, [rf.name], msg⟩])
  | none =>
    match rf.resolve store args with
    | Except.error msg => ((rf.name, Value.vnull), [⟨ErrKind.resolutionError, [rf.name], msg⟩])
    | Except.ok Value.vnull => ((rf.name, Value.vnull), [])
    | Except.ok v =>
      let rs := combine (sub.map (fun s => execSel reg store fuel rf.retTy v [rf.name] s))
      ((rf.name, Value.vobj rs.1), rs.2)

/-- Modelled from the spec: execute a query document against the query
root — each root selection dispatches to the matching root field; an
unknown root field is a ValidationError scoped to that field. -/
def executeQuery (reg : List TypeDef) (roots : List RootField) (store : Store)
    (fuel : Nat) (doc : List Selection) : GraphQLResult :=
  let rs := doc.map (fun s =>
    match s with
    | Selection.field n args sub =>
      match roots.find? (fun rf => rf.name == n) with
      | none => ((n, Value.vnull), [⟨ErrKind.validationError, [n], "unknown field"⟩])
      | some rf => execRootField reg store fuel rf args sub)
  ⟨rs.map Prod.fst, (rs.map Prod.snd).flatten⟩

/-- A RootField of the mutation root: argument schema, declared return type
and a resolver whose side effect transforms the store. -/
structure MutationField where
  name : String
  retTy : String
  argDefs : List ArgDef
  resolve : Store → Obj → Except String (Value × Store)

/-- Body addUser posts (schema.js): exactly the destructured firstName and
age arguments — companyId is never part of the payload. -/
def addUserBody (args : Obj) : Obj :=
  [("firstName", orNull (args.lookup "firstName")), ("age", orNull (args.lookup "age"))]

/-- Resolver of Mutation.addUser (schema.js): POST users with the
destructured firstName and age. -/
def addUserResolve (store : Store) (args : Obj) : Except String (Value × Store) :=
  Except.ok (httpPost store (addUserBody args))

/-- Resolver of Mutation.deleteUser (schema.js): DELETE users/{args.id}. -/
def deleteUserResolve (store : Store) (args : Obj) : Except String (Value × Store) :=
  httpDelete store (jsToString (args.lookup "id"))

/-- Resolver of Mutation.editUser (schema.js): PATCH users/{args.id} with
the whole argument object as the body. -/
def editUserResolve (store : Store) (args : Obj) : Except String (Value × Store) :=
  httpPatch store (jsToString (args.lookup "id")) args

/-- Mutation.addUser (schema.js): firstName and age are GraphQLNonNull,
companyId is optional. -/
def addUserField : MutationField :=
  ⟨"addUser", "User",
   [⟨"firstName", ScalarType.string, true⟩,
    ⟨"age", ScalarType.int, true⟩,
    ⟨"companyId", ScalarType.string, false⟩],
   addUserResolve⟩

/-- Mutation.deleteUser (schema.js): id is GraphQLNonNull. -/
def deleteUserField : MutationField :=
  ⟨"deleteUser", "User", [⟨"id", ScalarType.string, true⟩], deleteUserResolve⟩

/-- Mutation.editUser (schema.js): id is GraphQLNonNull; firstName, age,
companyId are optional. -/
def editUserField : MutationField :=
  ⟨"editUser", "User",
   [⟨"id", ScalarType.string, true⟩,
    ⟨"firstName", ScalarType.string, false⟩,
    ⟨"age", ScalarType.int, false⟩,
    ⟨"companyId", ScalarType.string, false⟩],
   editUserResolve⟩

/-- The mutation root's field list (schema.js). -/
def mutationFields : List MutationField := [addUserField, deleteUserField, editUserField]

/-- Modelled from the spec (section 4.3): execute one root mutation field.
Arguments are validated first; a ValidationError aborts the field before
the resolver runs, so the store is returned unchanged. A resolver failure
is a ResolutionError scoped at the field and also leaves the store
unchanged. On success the declared return type is resolved from the value
the resolver yielded, against the post-side-effect store. -/
def execMutationField (reg : List TypeDef) (store : Store) (fuel : Nat)
    (mf : MutationField) (args : Obj) (sub : List Selection) :
    ((String × Value) × List ErrEntry) × Store :=
  match validateArgs mf.argDefs args with
  | some msg => (((mf.name, Value.vnull), [⟨ErrKind.validationError, [mf.name], msg⟩]), store)
  | none =>
    match mf.resolve store args with
    | Except.error msg =>
      (((mf.name, Value.vnull), [⟨ErrKind.resolutionError, [mf.name], msg⟩]), store)
    | Except.ok (v, store2) =>
      let rs := combine (sub.map (fun s => execSel reg store2 fuel mf.retTy v [mf.name] s))
      (((mf.name, Value.vobj rs.1), rs.2), store2)

/-- Modelled from the spec: execute a mutation document — root fields run
in document order, each threading the store it received from the previous
one; a failing field contributes its scoped error and a null data entry
while its siblings still run to completion. -/
def executeMutation (reg : List TypeDef) (roots : List MutationField) (fuel : Nat) :
    Store → List Selection → GraphQLResult × Store
  | store, [] => (⟨[], []⟩, store)
  | store, Selection.field n args sub :: rest =>
    let step : ((String × Value) × List ErrEntry) × Store :=
      match roots.find? (fun mf => mf.name == n) with
      | none => (((n, Value.vnull), [⟨ErrKind.validationError, [n], "unknown field"⟩]), store)
      | some mf => execMutationField reg store fuel mf args sub
    let next := executeMutation reg roots fuel step.2 rest
    (⟨step.1.1 :: next.1.data, step.1.2 ++ next.1.errors⟩, next.2)

/-- Dummy in-memory users array of the first schema phase (schema.js before
the json-server rewrite). -/
def users : List Obj :=
  [[("id", Value.vstr "23"), ("firstName", Value.vstr "Bill"), ("age", Value.vint 20)],
   [("id", Value.vstr "47"), ("firstName", Value.vstr "Samantha"), ("age", Value.vint 21)]]

/-- Resolver of RootQuery.user in the in-memory phase (schema.js):
lodash find over the dummy users array on the id property; no match is
undefined, which serialises as a null user with no error. -/
def rootUserResolveMem (_store : Store) (args : Obj) : Except String Value :=
  match users.find? (fun u => hasId u (jsToString (args.lookup "id"))) with
  | some u => Except.ok (Value.vobj u)
  | none => Except.ok Value.vnull

/-- UserType of the in-memory phase (schema.js): id, firstName, age only,
none declaring a resolver. -/
def UserTypeMem : TypeDef :=
  ⟨"User",
   [⟨"id", FieldType.scalar ScalarType.string, none⟩,
    ⟨"firstName", FieldType.scalar ScalarType.string, none⟩,
    ⟨"age", FieldType.scalar ScalarType.int, none⟩]⟩

/-- RootQuery.user of the in-memory phase. -/
def userRootFieldMem : RootField :=
  ⟨"user", "User", [⟨"id", ScalarType.string, false⟩], rootUserResolveMem⟩

/-- Registry of the in-memory phase. -/
def registryMem : List TypeDef := [UserTypeMem]

/-- Name of a selected field. -/
def selName : Selection → String
  | Selection.field n _ _ => n

/-- Resolution of a whole sub-selection against one parent object, as the
executor performs it for object-typed values and for each list element. -/
def resolveObject (reg : List TypeDef) (store : Store) (fuel : Nat) (tyName : String)
    (v : Value) (path : List String) (sub : List Selection) : Obj × List ErrEntry :=
  combine (sub.map (fun s => execSel reg store fuel tyName v path s))

/-- Lookup after applying a delta to the keys of an association list:
keys of the old list answer with the delta's value when the delta has one. -/
theorem lookup_override (delta : Obj) (k : String) (old : Obj) :
    (old.map (fun kv =>
      match delta.lookup kv.1 with
      | some v => (kv.1, v)
      | none => kv)).lookup k =
    match old.lookup k, delta.lookup k with
    | none, _ => none
    | some _, some w => some w
    | some v, none => some v := by
  induction old with
  | nil => cases delta.lookup k <;> simp
  | cons kv rest ih =>
    obtain ⟨a, b⟩ := kv
    by_cases hk : k = a
    · subst hk
      cases hdl : delta.lookup k <;> simp [List.lookup, hdl]
    · have hkb : (k == a) = false := by simp [hk]
      cases hdl : delta.lookup a <;> simp [List.lookup, hdl, hkb, ih]

/-- Filtering a delta down to the keys the old list lacks does not change
lookups of such keys. -/
theorem lookup_filter_keep (old delta : Obj) (k : String) (h : old.lookup k = none) :
    (delta.filter (fun kv => (old.lookup kv.1).isNone)).lookup k = delta.lookup k := by
  induction delta with
  | nil => simp
  | cons kv rest ih =>
    obtain ⟨a, b⟩ := kv
    by_cases hk : k = a
    · subst hk
      simp [List.filter, List.lookup, h, ih]
    · have hkb : (k == a) = false := by simp [hk]
      cases hoa : (old.lookup a).isNone <;> simp [List.filter, List.lookup, hoa, hkb, ih]

/-- Lookup distributes over append, preferring the left list. -/
theorem lookup_append (l1 l2 : Obj) (k : String) :
    (l1 ++ l2).lookup k =
      match l1.lookup k with
      | some v => some v
      | none => l2.lookup k := by
  induction l1 with
  | nil => simp
  | cons kv rest ih =>
    obtain ⟨a, b⟩ := kv
    by_cases hk : (k == a)
    · simp [List.lookup, hk]
    · simp only [Bool.not_eq_true] at hk
      simp [List.lookup, hk, ih]

/-- Lookup through a PATCH merge: a key supplied by the delta answers with
the delta's value, any other key keeps the stored value. -/
theorem mergeObj_lookup (old delta : Obj) (k : String) :
    (mergeObj old delta).lookup k =
      match old.lookup k, delta.lookup k with
      | none, w => w
      | some _, some w => some w
      | some v, none => some v := by
  unfold mergeObj
  rw [lookup_append, lookup_override]
  cases hok : old.lookup k with
  | none => simp [lookup_filter_keep _ _ _ hok]
  | some v => cases delta.lookup k <;> simp

/-- Membership in the error component of an assembled selection-set result
is membership in one of the per-field error lists. -/
theorem mem_combine (rs : List ((String × Value) × List ErrEntry)) (e : ErrEntry) :
    e ∈ (combine rs).2 ↔ ∃ r ∈ rs, e ∈ r.2 := by
  unfold combine
  simp only [List.mem_flatten, List.mem_map]
  constructor
  · rintro ⟨l, ⟨r, hr, rfl⟩, hel⟩
    exact ⟨r, hr, hel⟩
  · rintro ⟨r, hr, her⟩
    exact ⟨r.2, ⟨r, hr, rfl⟩, her⟩

/-- Every error entry produced while resolving a selected field carries a
path that extends the surrounding path with that field's name: failures are
scoped to the failing field's subtree, at any depth and any fuel. -/
theorem execSel_errors_scoped (reg : List TypeDef) (store : Store) :
    ∀ (fuel : Nat) (tyName : String) (parent : Value) (path : List String) (s : Selection)
      (e : ErrEntry), e ∈ (execSel reg store fuel tyName parent path s).2 →
      ∃ rest, e.path = path ++ selName s :: rest := by
  intro fuel
  induction fuel with
  | zero =>
    intro ty parent path s e he
    cases s
    simp [execSel] at he
  | succ fuel ih =>
    intro ty parent path s e he
    cases s with
    | field name args sub =>
      simp only [execSel, selName] at he ⊢
      cases hlt : lookupType reg ty with
      | none =>
        simp only [hlt] at he
        simp at he
        subst he
        exact ⟨[], by simp⟩
      | some td =>
        simp only [hlt] at he
        cases hff : findField td name with
        | none =>
          simp only [hff] at he
          simp at he
          subst he
          exact ⟨[], by simp⟩
        | some fd =>
          simp only [hff] at he
          split at he
          · simp at he
            subst he
            exact ⟨[], by simp⟩
          · split at he
            · simp at he
            · split at he
              · simp at he
              · rw [mem_combine] at he
                obtain ⟨r, hr, her⟩ := he
                simp only [List.mem_map] at hr
                obtain ⟨s2, hs2, rfl⟩ := hr
                obtain ⟨rest, hrest⟩ := ih _ _ _ _ _ her
                exact ⟨selName s2 :: rest, by simp [hrest]⟩
            · split at he
              · simp only [List.mem_flatten, List.mem_map] at he
                obtain ⟨l, ⟨o, ho, rfl⟩, hel⟩ := he
                obtain ⟨p, hp, rfl⟩ := ho
                rw [mem_combine] at hel
                obtain ⟨r, hr, her⟩ := hel
                simp only [List.mem_map] at hr
                obtain ⟨s2, hs2, rfl⟩ := hr
                obtain ⟨rest, hrest⟩ := ih _ _ _ _ _ her
                exact ⟨toString p.1 :: selName s2 :: rest, by simp [hrest]⟩
              · simp at he
                subst he
                exact ⟨[], by simp⟩

/-- Claim C1: an addUser invocation whose supplied arguments omit the
required age argument is rejected with a ValidationError before the
resolver runs — the result data is null, the single error is a
ValidationError at path addUser, and the record store is returned
unchanged, so no create request reaches the collaborator. -/
theorem addUser_missing_required_arg_rejected (store : Store) (args : Obj)
    (sub : List Selection) (fuel : Nat) (h : args.lookup "age" = none) :
    ∃ msg, execMutationField registry store fuel addUserField args sub =
      ((("addUser", Value.vnull), [⟨ErrKind.validationError, ["addUser"], msg⟩]), store) := by
  unfold execMutationField addUserField
  simp only [validateArgs]
  cases hfn : args.lookup "firstName" with
  | none => exact ⟨_, rfl⟩
  | some v =>
    by_cases hm : scalarMatches ScalarType.string v
    · simp [hm, h]
    · simp [hm]

/-- Claim C1 witness: calling addUser with only firstName supplied is
rejected with a ValidationError and an unchanged empty store. -/
theorem addUser_missing_required_arg_rejected_witness :
    (List.lookup "age" ([("firstName", Value.vstr "Stephen")] : Obj) = none) ∧
    ∃ msg, execMutationField registry ⟨[], []⟩ 3 addUserField
        [("firstName", Value.vstr "Stephen")] [] =
      ((("addUser", Value.vnull), [⟨ErrKind.validationError, ["addUser"], msg⟩]), ⟨[], []⟩) :=
  ⟨rfl, addUser_missing_required_arg_rejected ⟨[], []⟩
    [("firstName", Value.vstr "Stephen")] [] 3 rfl⟩

/-- Claim C2: a deleteUser mutation selecting only the id field resolves
its declared UserType return from the value the delete resolver yields:
the caller receives the deleted identifier under the id key with no
errors, while the record itself is gone from the resulting store. -/
theorem deleteUser_selecting_id_returns_identifier (store : Store) (id : String) (u : Obj)
    (fuel : Nat) (h : findRec store.users id = some u) :
    execMutationField registry store (fuel+1) deleteUserField [("id", Value.vstr id)]
        [Selection.field "id" [] []] =
      ((("deleteUser", Value.vobj [("id", Value.vstr id)]), []),
       { store with users := store.users.filter (fun r => !(hasId r id)) }) ∧
    findRec (store.users.filter (fun r => !(hasId r id))) id = none := by
  constructor
  · simp [execMutationField, deleteUserField, validateArgs, scalarMatches,
      deleteUserResolve, httpDelete, jsToString, h, execSel, combine,
      registry, lookupType, UserType, findField, defaultResolve, attr]
  · apply List.find?_eq_none.mpr
    intro r hr
    simp only [List.mem_filter] at hr
    simpa using hr.2

/-- Claim C2 witness: deleting user 7 from a one-user store returns the
identifier and leaves a store in which user 7 no longer exists. -/
theorem deleteUser_selecting_id_returns_identifier_witness :
    (findRec (Store.mk [[("id", Value.vstr "7")]] []).users "7" = some [("id", Value.vstr "7")]) ∧
    (execMutationField registry ⟨[[("id", Value.vstr "7")]], []⟩ 3 deleteUserField
        [("id", Value.vstr "7")] [Selection.field "id" [] []] =
      ((("deleteUser", Value.vobj [("id", Value.vstr "7")]), []),
       { Store.mk [[("id", Value.vstr "7")]] [] with
          users := (Store.mk [[("id", Value.vstr "7")]] []).users.filter
            (fun r => !(hasId r "7")) }) ∧
     findRec ((Store.mk [[("id", Value.vstr "7")]] []).users.filter
       (fun r => !(hasId r "7"))) "7" = none) :=
  ⟨rfl, deleteUser_selecting_id_returns_identifier ⟨[[("id", Value.vstr "7")]], []⟩
    "7" [("id", Value.vstr "7")] 2 rfl⟩

/-- Claim C3: executing any query document is a total function of the
embedding returning data plus errors — no failure escapes it — and every
error entry the execution produces, including resolver and collaborator
failures at any depth and for any store contents, is scoped: its path
starts at the name of a field selected in the document. -/
theorem query_failures_scoped (reg : List TypeDef) (roots : List RootField) (store : Store)
    (fuel : Nat) (doc : List Selection) (e : ErrEntry)
    (he : e ∈ (executeQuery reg roots store fuel doc).errors) :
    ∃ s ∈ doc, ∃ rest, e.path = selName s :: rest := by
  simp only [executeQuery, List.mem_flatten, List.mem_map] at he
  obtain ⟨l, ⟨r, ⟨s, hs, rfl⟩, rfl⟩, hel⟩ := he
  refine ⟨s, hs, ?_⟩
  cases s with
  | field n args sub =>
    simp only [selName] at hel ⊢
    cases hfind : roots.find? (fun rf => rf.name == n) with
    | none =>
      simp only [hfind] at hel
      simp at hel
      subst hel
      exact ⟨[], rfl⟩
    | some rf =>
      have hname : rf.name = n := by
        have := List.find?_some hfind
        simpa using this
      simp only [hfind] at hel
      unfold execRootField at hel
      split at hel
      · simp at hel
        subst hel
        exact ⟨[], by simp [hname]⟩
      · split at hel
        · simp at hel
          subst hel
          exact ⟨[], by simp [hname]⟩
        · simp at hel
        · rw [mem_combine] at hel
          obtain ⟨r2, hr2, her⟩ := hel
          simp only [List.mem_map] at hr2
          obtain ⟨s2, hs2, rfl⟩ := hr2
          obtain ⟨rest, hrest⟩ := execSel_errors_scoped reg store fuel _ _ _ _ _ her
          exact ⟨selName s2 :: rest, by simp [hrest, hname]⟩

/-- Claim C3 witness: querying user 1 against an empty store makes the
root resolver's collaborator call fail; the resulting error is captured in
the errors sequence and scoped under the selected user field. -/
theorem query_failures_scoped_witness :
    (⟨ErrKind.resolutionError, ["user"], "404 users"⟩ : ErrEntry) ∈
      (executeQuery registry rootQueryFields ⟨[], []⟩ 1
        [Selection.field "user" [("id", Value.vstr "1")] []]).errors ∧
    ∃ s ∈ [Selection.field "user" [("id", Value.vstr "1")] []], ∃ rest,
      (⟨ErrKind.resolutionError, ["user"], "404 users"⟩ : ErrEntry).path = selName s :: rest :=
  ⟨by decide, query_failures_scoped registry rootQueryFields ⟨[], []⟩ 1
    [Selection.field "user" [("id", Value.vstr "1")] []]
    ⟨ErrKind.resolutionError, ["user"], "404 users"⟩ (by decide)⟩

/-- Claim C4: when deleteUser is invoked with an identifier absent from
the record store, its ResolutionError is scoped to that field while the
sibling addUser root field in the same mutation document still resolves to
completion: the caller receives partial data (null deleteUser, resolved
addUser) plus the single errors entry carrying the failing field's path,
and the sibling's side effect is applied to the store. -/
theorem deleteUser_absent_id_scoped_error (store : Store) (id fn : String) (n : Int)
    (fuel : Nat) (h : findRec store.users id = none) :
    executeMutation registry mutationFields (fuel+1) store
      [Selection.field "deleteUser" [("id", Value.vstr id)] [Selection.field "id" [] []],
       Selection.field "addUser" [("firstName", Value.vstr fn), ("age", Value.vint n)]
         [Selection.field "firstName" [] []]] =
      (⟨[("deleteUser", Value.vnull),
         ("addUser", Value.vobj [("firstName", Value.vstr fn)])],
        [⟨ErrKind.resolutionError, ["deleteUser"], "404 users"⟩]⟩,
       { store with users := store.users ++
          [("id", Value.vstr (freshId store)) ::
            addUserBody [("firstName", Value.vstr fn), ("age", Value.vint n)]] }) := by
  simp [executeMutation, execMutationField, mutationFields, deleteUserField, addUserField,
    validateArgs, scalarMatches, deleteUserResolve, addUserResolve, httpDelete, httpPost,
    jsToString, h, execSel, combine, registry, lookupType, UserType, findField,
    defaultResolve, attr, addUserBody, orNull, List.lookup]

/-- Claim C4 witness: deleting absent user 99 next to a valid addUser in
an empty store yields partial data plus the scoped error. -/
theorem deleteUser_absent_id_scoped_error_witness :
    (findRec (Store.mk [] []).users "99" = none) ∧
    executeMutation registry mutationFields 1 ⟨[], []⟩
      [Selection.field "deleteUser" [("id", Value.vstr "99")] [Selection.field "id" [] []],
       Selection.field "addUser"
         [("firstName", Value.vstr "Stephen"), ("age", Value.vint 26)]
         [Selection.field "firstName" [] []]] =
      (⟨[("deleteUser", Value.vnull),
         ("addUser", Value.vobj [("firstName", Value.vstr "Stephen")])],
        [⟨ErrKind.resolutionError, ["deleteUser"], "404 users"⟩]⟩,
       { Store.mk [] [] with users := (Store.mk [] []).users ++
          [("id", Value.vstr (freshId ⟨[], []⟩)) ::
            addUserBody [("firstName", Value.vstr "Stephen"), ("age", Value.vint 26)]] }) :=
  ⟨rfl, deleteUser_absent_id_scoped_error ⟨[], []⟩ "99" "Stephen" 26 0 rfl⟩

/-- Claim C5: resolving the Company.users field (declared list of User)
applies sub-field resolution to each element the resolver yields,
independently, and the output sequence preserves the source ordering
element-for-element: the output is a list of the same length and its i-th
entry is the resolution of the i-th source element. -/
theorem list_field_preserves_element_order (store : Store) (fuel : Nat) (parent : Value)
    (path : List String) (sub : List Selection) (i : Nat)
    (h : i < (companyUsersList store (jsToString (attr parent "id"))).length) :
    ∃ outs : List Value,
      (execSel registry store (fuel+1) "Company" parent path
        (Selection.field "users" [] sub)).1.2 = Value.vlist outs ∧
      outs.length = (companyUsersList store (jsToString (attr parent "id"))).length ∧
      outs[i]? = some (Value.vobj (resolveObject registry store fuel "User"
        ((companyUsersList store (jsToString (attr parent "id"))).get ⟨i, h⟩)
        (path ++ ["users", toString i]) sub).1) := by
  refine ⟨((companyUsersList store (jsToString (attr parent "id"))).enum.map (fun p =>
      combine (sub.map (fun s =>
        execSel registry store fuel "User" p.2 (path ++ ["users", toString p.1]) s)))).map
      (fun o => Value.vobj o.1), ?_, ?_, ?_⟩
  · simp [execSel, registry, lookupType, UserType, CompanyType, findField,
      companyUsersResolve, httpGetCompanyUsers, companyUsersList]
  · simp [companyUsersList]
  · rw [List.getElem?_map, List.getElem?_map, List.getElem?_enum,
      List.getElem?_eq_getElem h]
    simp [resolveObject]

/-- Claim C5 witness: a store with two users of company 1, queried through
the Company.users field selecting id, resolves element 1 of the output to
the resolution of source element 1. -/
theorem list_field_preserves_element_order_witness :
    (1 < (companyUsersList
      ⟨[[("id", Value.vstr "a"), ("companyId", Value.vstr "1")],
        [("id", Value.vstr "b"), ("companyId", Value.vstr "1")]], []⟩
      (jsToString (attr (Value.vobj [("id", Value.vstr "1")]) "id"))).length) ∧
    ∃ outs : List Value,
      (execSel registry
        ⟨[[("id", Value.vstr "a"), ("companyId", Value.vstr "1")],
          [("id", Value.vstr "b"), ("companyId", Value.vstr "1")]], []⟩
        3 "Company" (Value.vobj [("id", Value.vstr "1")]) []
        (Selection.field "users" [] [Selection.field "id" [] []])).1.2 = Value.vlist outs ∧
      outs.length = (companyUsersList
        ⟨[[("id", Value.vstr "a"), ("companyId", Value.vstr "1")],
          [("id", Value.vstr "b"), ("companyId", Value.vstr "1")]], []⟩
        (jsToString (attr (Value.vobj [("id", Value.vstr "1")]) "id"))).length ∧
      outs[1]? = some (Value.vobj (resolveObject registry
        ⟨[[("id", Value.vstr "a"), ("companyId", Value.vstr "1")],
          [("id", Value.vstr "b"), ("companyId", Value.vstr "1")]], []⟩
        2 "User"
        ((companyUsersList
          ⟨[[("id", Value.vstr "a"), ("companyId", Value.vstr "1")],
            [("id", Value.vstr "b"), ("companyId", Value.vstr "1")]], []⟩
          (jsToString (attr (Value.vobj [("id", Value.vstr "1")]) "id"))).get ⟨1, by decide⟩)
        ([] ++ ["users", toString 1]) [Selection.field "id" [] []]).1) :=
  ⟨by decide, list_field_preserves_element_order
    ⟨[[("id", Value.vstr "a"), ("companyId", Value.vstr "1")],
      [("id", Value.vstr "b"), ("companyId", Value.vstr "1")]], []⟩
    2 (Value.vobj [("id", Value.vstr "1")]) [] [Selection.field "id" [] []] 1 (by decide)⟩

/-- Claim C6: with the registry declaring User (id, firstName, age,
company -> Company) and Company (id, name, description, users -> list of
User), the root query user(id 23) with selection id, firstName and
company (selecting name) returns a data mapping whose user value holds
exactly the three requested keys, company itself holding exactly the one
key name, and no errors — for any store in which user 23 exists and its
companyId resolves to a company. -/
theorem user23_query_shape (store : Store) (fuel : Nat) (cid : String) (u c : Obj)
    (hu : findRec store.users "23" = some u)
    (hcid : u.lookup "companyId" = some (Value.vstr cid))
    (hc : findRec store.companies cid = some c) :
    executeQuery registry rootQueryFields store (fuel+2)
      [Selection.field "user" [("id", Value.vstr "23")]
        [Selection.field "id" [] [], Selection.field "firstName" [] [],
         Selection.field "company" [] [Selection.field "name" [] []]]] =
      ⟨[("user", Value.vobj
          [("id", orNull (u.lookup "id")),
           ("firstName", orNull (u.lookup "firstName")),
           ("company", Value.vobj [("name", orNull (c.lookup "name"))])])], []⟩ := by
  simp [executeQuery, execRootField, rootQueryFields, userRootField, validateArgs,
    scalarMatches, rootUserResolve, httpGetUser, jsToString, hu, execSel, combine, registry,
    lookupType, UserType, CompanyType, findField, defaultResolve, attr, orNull,
    userCompanyResolve, httpGetCompany, hcid, hc, List.lookup]

/-- Claim C6 witness: a store holding user 23 (companyId 1) and company 1
produces the three-key user mapping with the one-key company mapping. -/
theorem user23_query_shape_witness :
    (findRec (Store.mk
        [[("id", Value.vstr "23"), ("firstName", Value.vstr "Bill"),
          ("age", Value.vint 20), ("companyId", Value.vstr "1")]]
        [[("id", Value.vstr "1"), ("name", Value.vstr "Apple")]]).users "23"
      = some [("id", Value.vstr "23"), ("firstName", Value.vstr "Bill"),
              ("age", Value.vint 20), ("companyId", Value.vstr "1")]) ∧
    executeQuery registry rootQueryFields
      ⟨[[("id", Value.vstr "23"), ("firstName", Value.vstr "Bill"),
         ("age", Value.vint 20), ("companyId", Value.vstr "1")]],
       [[("id", Value.vstr "1"), ("name", Value.vstr "Apple")]]⟩ 2
      [Selection.field "user" [("id", Value.vstr "23")]
        [Selection.field "id" [] [], Selection.field "firstName" [] [],
         Selection.field "company" [] [Selection.field "name" [] []]]] =
      ⟨[("user", Value.vobj
          [("id", orNull (List.lookup "id"
             [("id", Value.vstr "23"), ("firstName", Value.vstr "Bill"),
              ("age", Value.vint 20), ("companyId", Value.vstr "1")])),
           ("firstName", orNull (List.lookup "firstName"
             [("id", Value.vstr "23"), ("firstName", Value.vstr "Bill"),
              ("age", Value.vint 20), ("companyId", Value.vstr "1")])),
           ("company", Value.vobj [("name", orNull (List.lookup "name"
             [("id", Value.vstr "1"), ("name", Value.vstr "Apple")]))])])], []⟩ :=
  ⟨rfl, user23_query_shape
    ⟨[[("id", Value.vstr "23"), ("firstName", Value.vstr "Bill"),
       ("age", Value.vint 20), ("companyId", Value.vstr "1")]],
     [[("id", Value.vstr "1"), ("name", Value.vstr "Apple")]]⟩ 0 "1"
    [("id", Value.vstr "23"), ("firstName", Value.vstr "Bill"),
     ("age", Value.vint 20), ("companyId", Value.vstr "1")]
    [("id", Value.vstr "1"), ("name", Value.vstr "Apple")] rfl rfl rfl⟩

/-- Claim C7: every field of the final schema that declares no resolver —
User.id, User.firstName, User.age, Company.id, Company.name and
Company.description — resolves, against any parent value, to the attribute
of the same name read off the parent value, with no error. -/
theorem fields_without_resolver_read_attr (store : Store) (fuel : Nat) (parent : Value)
    (path : List String) :
    execSel registry store (fuel+1) "User" parent path (Selection.field "id" [] [])
      = (("id", orNull (attr parent "id")), []) ∧
    execSel registry store (fuel+1) "User" parent path (Selection.field "firstName" [] [])
      = (("firstName", orNull (attr parent "firstName")), []) ∧
    execSel registry store (fuel+1) "User" parent path (Selection.field "age" [] [])
      = (("age", orNull (attr parent "age")), []) ∧
    execSel registry store (fuel+1) "Company" parent path (Selection.field "id" [] [])
      = (("id", orNull (attr parent "id")), []) ∧
    execSel registry store (fuel+1) "Company" parent path (Selection.field "name" [] [])
      = (("name", orNull (attr parent "name")), []) ∧
    execSel registry store (fuel+1) "Company" parent path
        (Selection.field "description" [] [])
      = (("description", orNull (attr parent "description")), []) := by
  refine ⟨?_, ?_, ?_, ?_, ?_, ?_⟩ <;>
    simp [execSel, registry, lookupType, UserType, CompanyType, findField,
      defaultResolve, orNull]

/-- Claim C8: in the in-memory schema phase, any user id other than 23 and
47 finds no record in the dummy users array: the lodash find yields
undefined, the root resolver reports a null user, and the query result
carries the null value with an empty errors sequence. -/
theorem unknown_user_id_yields_null_without_error (id : String) (store : Store) (fuel : Nat)
    (h23 : id ≠ "23") (h47 : id ≠ "47") :
    executeQuery registryMem [userRootFieldMem] store fuel
      [Selection.field "user" [("id", Value.vstr id)]
        [Selection.field "id" [] [], Selection.field "firstName" [] [],
         Selection.field "age" [] []]] =
      ⟨[("user", Value.vnull)], []⟩ := by
  have h23b : ("23" == id) = false := by
    simp [beq_eq_false_iff_ne]
    exact fun hh => h23 hh.symm
  have h47b : ("47" == id) = false := by
    simp [beq_eq_false_iff_ne]
    exact fun hh => h47 hh.symm
  simp [executeQuery, execRootField, userRootFieldMem, validateArgs, scalarMatches,
    rootUserResolveMem, users, hasId, jsToString, h23b, h47b]

/-- Claim C8 witness: id 99 yields the null user and no errors. -/
theorem unknown_user_id_yields_null_without_error_witness :
    ("99" ≠ "23") ∧ ("99" ≠ "47") ∧
    executeQuery registryMem [userRootFieldMem] ⟨[], []⟩ 1
      [Selection.field "user" [("id", Value.vstr "99")]
        [Selection.field "id" [] [], Selection.field "firstName" [] [],
         Selection.field "age" [] []]] =
      ⟨[("user", Value.vnull)], []⟩ :=
  ⟨by decide, by decide,
   unknown_user_id_yields_null_without_error "99" ⟨[], []⟩ 1 (by decide) (by decide)⟩

/-- Claim C9: the create payload addUser sends to the collaborator holds
exactly the keys id (assigned by the store), firstName and age: a supplied
companyId argument, although declared in addUser's argument schema, is
never forwarded, so the created record has no companyId regardless of the
caller's input. -/
theorem addUser_payload_excludes_companyId (store : Store) (fuel : Nat) (fn cid : String)
    (n : Int) (sub : List Selection) :
    ∃ r, (execMutationField registry store fuel addUserField
        [("firstName", Value.vstr fn), ("age", Value.vint n), ("companyId", Value.vstr cid)]
        sub).2
          = { store with users := store.users ++ [r] } ∧
      r.map Prod.fst = ["id", "firstName", "age"] ∧
      r.lookup "companyId" = none ∧
      r.lookup "firstName" = some (Value.vstr fn) ∧
      r.lookup "age" = some (Value.vint n) := by
  refine ⟨("id", Value.vstr (freshId store)) ::
    addUserBody [("firstName", Value.vstr fn), ("age", Value.vint n),
      ("companyId", Value.vstr cid)],
    ?_, ?_, ?_, ?_, ?_⟩ <;>
  simp [execMutationField, addUserField, validateArgs, scalarMatches, addUserResolve,
    httpPost, addUserBody, orNull, List.lookup]

/-- Claim C10: the editUser mutation forwards its entire argument mapping
— the id argument itself alongside the supplied firstName — verbatim as
the PATCH delta: the updated record answers id and firstName with the
supplied values, while the age and companyId keys, absent from the
arguments, keep the stored record's values untouched. -/
theorem editUser_forwards_whole_args (store : Store) (fuel : Nat) (id fn : String) (u : Obj)
    (sub : List Selection) (h : findRec store.users id = some u) :
    (execMutationField registry store fuel editUserField
        [("id", Value.vstr id), ("firstName", Value.vstr fn)] sub).2 =
      { store with users := store.users.map (fun r =>
         if hasId r id then mergeObj u [("id", Value.vstr id), ("firstName", Value.vstr fn)]
         else r) } ∧
    (mergeObj u [("id", Value.vstr id), ("firstName", Value.vstr fn)]).lookup "id"
      = some (Value.vstr id) ∧
    (mergeObj u [("id", Value.vstr id), ("firstName", Value.vstr fn)]).lookup "firstName"
      = some (Value.vstr fn) ∧
    (mergeObj u [("id", Value.vstr id), ("firstName", Value.vstr fn)]).lookup "age"
      = u.lookup "age" ∧
    (mergeObj u [("id", Value.vstr id), ("firstName", Value.vstr fn)]).lookup "companyId"
      = u.lookup "companyId" := by
  refine ⟨?_, ?_, ?_, ?_, ?_⟩
  · simp [execMutationField, editUserField, validateArgs, scalarMatches, editUserResolve,
      httpPatch, jsToString, h, List.lookup]
  · rw [mergeObj_lookup]
    cases hu : u.lookup "id" <;> simp [List.lookup]
  · rw [mergeObj_lookup]
    cases hu : u.lookup "firstName" <;> simp [List.lookup]
  · rw [mergeObj_lookup]
    cases hu : u.lookup "age" <;> simp [List.lookup]
  · rw [mergeObj_lookup]
    cases hu : u.lookup "companyId" <;> simp [List.lookup]

/-- Claim C10 witness: editing user 9's firstName in a one-user store
patches firstName and id from the arguments and keeps the stored age. -/
theorem editUser_forwards_whole_args_witness :
    (findRec (Store.mk [[("id", Value.vstr "9"), ("age", Value.vint 5)]] []).users "9"
      = some [("id", Value.vstr "9"), ("age", Value.vint 5)]) ∧
    ((execMutationField registry ⟨[[("id", Value.vstr "9"), ("age", Value.vint 5)]], []⟩ 1
        editUserField [("id", Value.vstr "9"), ("firstName", Value.vstr "Steve")] []).2 =
      { Store.mk [[("id", Value.vstr "9"), ("age", Value.vint 5)]] [] with
         users := (Store.mk [[("id", Value.vstr "9"), ("age", Value.vint 5)]] []).users.map
           (fun r => if hasId r "9" then
             mergeObj [("id", Value.vstr "9"), ("age", Value.vint 5)]
               [("id", Value.vstr "9"), ("firstName", Value.vstr "Steve")]
             else r) } ∧
     (mergeObj [("id", Value.vstr "9"), ("age", Value.vint 5)]
        [("id", Value.vstr "9"), ("firstName", Value.vstr "Steve")]).lookup "id"
       = some (Value.vstr "9") ∧
     (mergeObj [("id", Value.vstr "9"), ("age", Value.vint 5)]
        [("id", Value.vstr "9"), ("firstName", Value.vstr "Steve")]).lookup "firstName"
       = some (Value.vstr "Steve") ∧
     (mergeObj [("id", Value.vstr "9"), ("age", Value.vint 5)]
        [("id", Value.vstr "9"), ("firstName", Value.vstr "Steve")]).lookup "age"
       = List.lookup "age" [("id", Value.vstr "9"), ("age", Value.vint 5)] ∧
     (mergeObj [("id", Value.vstr "9"), ("age", Value.vint 5)]
        [("id", Value.vstr "9"), ("firstName", Value.vstr "Steve")]).lookup "companyId"
       = List.lookup "companyId" [("id", Value.vstr "9"), ("age", Value.vint 5)]) :=
  ⟨rfl, editUser_forwards_whole_args ⟨[[("id", Value.vstr "9"), ("age", Value.vint 5)]], []⟩
    1 "9" "Steve" [("id", Value.vstr "9"), ("age", Value.vint 5)] [] rfl⟩
